import Mathlib

/-
Verification of the offline-first storage and sync layer of the
graduation-portal repository.

The generic persistence layer (src/services/storage/BaseStorageService.ts)
operates on TypeScript values of type Record<string, any>.  We embed such
records as association lists of (field name, value) pairs preserving JS
object insertion-order semantics: reading takes the first matching key,
property assignment updates the first occurrence in place or appends a new
key at the end, and object spread merges left to right.  Timestamps
(Date.now / new Date().toISOString()) are modelled as an explicit natural
number clock passed to each operation; generated identifiers
(Date.now + random suffix) are modelled as explicit string parameters.
AsyncStorage state is the stored collection, passed and returned
explicitly by each operation.
-/

/-- Primitive JS values that occur in stored records. -/
inductive Value where
  | vUndef
  | vBool (b : Bool)
  | vNum (n : Nat)
  | vStr (s : String)
deriving DecidableEq, Repr

/-- A JS object (Record<string, any>) as an insertion-ordered association list. -/
abbrev Obj := List (String × Value)

namespace Obj

/-- Property read: first pair with the given key, undefined when absent. -/
def get : Obj → String → Value
  | [], _ => .vUndef
  | p :: ps, k => if p.1 = k then p.2 else get ps k

/-- The `key in obj` test. -/
def hasKey : Obj → String → Bool
  | [], _ => false
  | p :: ps, k => p.1 == k || hasKey ps k

/-- Property assignment: update the first occurrence in place, else append. -/
def set : Obj → String → Value → Obj
  | [], k, v => [(k, v)]
  | p :: ps, k, v => if p.1 = k then (k, v) :: ps else p :: set ps k v

/-- Object spread {...a, ...b}: fields of b assigned over a, left to right. -/
def merge (a b : Obj) : Obj :=
  b.foldl (fun acc p => acc.set p.1 p.2) a

theorem get_set_self (o : Obj) (k : String) (v : Value) : (o.set k v).get k = v := by
  induction o with
  | nil => simp [set, get]
  | cons p ps ih =>
    by_cases h : p.1 = k
    · simp [set, get, h]
    · simp [set, get, h, ih]

theorem get_set_ne (o : Obj) {k k2 : String} (v : Value) (h : k ≠ k2) :
    (o.set k v).get k2 = o.get k2 := by
  induction o with
  | nil => simp [set, get, h]
  | cons p ps ih =>
    by_cases hp : p.1 = k
    · simp [set, get, hp, h]
    · by_cases hp2 : p.1 = k2
      · simp [set, get, hp, hp2, Ne.symm h]
      · simp [set, get, hp, hp2, ih]

theorem get_merge_of_not_key (a b : Obj) {k : String} (h : ∀ p ∈ b, p.1 ≠ k) :
    (a.merge b).get k = a.get k := by
  induction b generalizing a with
  | nil => rfl
  | cons p ps ih =>
    have hp : p.1 ≠ k := h p (by simp)
    have hrest : ∀ q ∈ ps, q.1 ≠ k := fun q hq => h q (by simp [hq])
    simp only [merge, List.foldl_cons]
    have := ih (a.set p.1 p.2) hrest
    simp only [merge] at this
    rw [this, get_set_ne _ _ hp]

end Obj

namespace BaseStorageService

/-- Effective configuration of the service: the constructor merges the
defaults id / createdAt / updatedAt with the subclass-provided config, so
all three field names are always present. -/
structure Config where
  idField : String := "id"
  createdAtField : String := "createdAt"
  updatedAtField : String := "updatedAt"

def defaultConfig : Config := {}

/-- Shape of `order?: 'asc' | 'desc'` values. -/
inductive OrderDir where
  | asc
  | desc
deriving DecidableEq, Repr

/-- The `where` argument: either a partial object of field/value pairs that
must all match exactly, or an arbitrary predicate function. -/
inductive WhereClause where
  | fieldsEq (fields : List (String × Value))
  | pred (f : Obj → Bool)

/-- FilterOptions from the storage types: every component optional. -/
structure FilterOptions where
  whereClause : Option WhereClause := none
  orderBy : Option String := none
  order : Option OrderDir := none
  limit : Option Nat := none
  offset : Option Nat := none

/-- One where-clause test on a single item. -/
def matchesWhere (w : WhereClause) (item : Obj) : Bool :=
  match w with
  | .fieldsEq fields => fields.all (fun p => decide (item.get p.1 = p.2))
  | .pred f => f item

/-- JS relational comparison aVal < bVal restricted to same-type
primitives; cross-type or undefined comparisons are modelled as false
(in JS they evaluate to false for the inputs this code sees). -/
def Value.ltb : Value → Value → Bool
  | .vNum a, .vNum b => a < b
  | .vStr a, .vStr b => a < b
  | .vBool a, .vBool b => !a && b
  | _, _ => false

/-- The comparator built in applyFilters: -1*order when aVal < bVal,
1*order when aVal > bVal, 0 otherwise, with order = -1 for desc. -/
def compareByField (f : String) (desc : Bool) (a b : Obj) : Int :=
  let aVal := a.get f
  let bVal := b.get f
  let order : Int := if desc then -1 else 1
  if Value.ltb aVal bVal then -1 * order
  else if Value.ltb bVal aVal then 1 * order
  else 0

/-- Array.prototype.sort with the field comparator; the JS sort is stable,
modelled by a stable merge sort keeping a before b when the comparator is
nonpositive. -/
def sortByField (f : String) (desc : Bool) (l : List Obj) : List Obj :=
  l.mergeSort (fun a b => compareByField f desc a b ≤ 0)

/-- applyFilters: where-filter, then orderBy sort, then slice(offset),
then slice(0, limit), in that order. -/
def applyFilters (data : List Obj) (options : FilterOptions) : List Obj :=
  let result := data
  let result := match options.whereClause with
    | some w => result.filter (matchesWhere w)
    | none => result
  let result := match options.orderBy with
    | some f => sortByField f (decide (options.order = some OrderDir.desc)) result
    | none => result
  let result := match options.offset with
    | some off => result.drop off
    | none => result
  match options.limit with
  | some k => result.take k
  | none => result

/-- addTimestamps: stamp createdAt (only for new items) and updatedAt with
the current clock. -/
def addTimestamps (cfg : Config) (item : Obj) (isNew : Bool) (now : Nat) : Obj :=
  let result := item
  let result := if isNew then result.set cfg.createdAtField (.vNum now) else result
  result.set cfg.updatedAtField (.vNum now)

/-- StorageResult<T>: success with data, or failure with an error string. -/
inductive StorageResult (β : Type) where
  | ok (data : β)
  | err (error : String)
deriving DecidableEq, Repr

/-- BulkStorageResult for createBulk: success flag, persisted items, and
the per-index error list (undefined in TS when empty, modelled as []). -/
structure BulkStorageResult where
  success : Bool
  data : List Obj
  errors : List (Nat × String)
deriving DecidableEq, Repr

/-- Array.prototype.findIndex, with none standing for the -1 result. -/
def findIndex (p : Obj → Bool) : List Obj → Option Nat
  | [] => none
  | x :: xs => if p x then some 0 else (findIndex p xs).map (· + 1)

theorem findIndex_eq_none (p : Obj → Bool) (l : List Obj) (h : ∀ x ∈ l, p x = false) :
    findIndex p l = none := by
  induction l with
  | nil => rfl
  | cons x xs ih =>
    have hx := h x (by simp)
    simp [findIndex, hx, ih (fun y hy => h y (by simp [hy]))]

/-- create: copy the item, generate an ID only when the ID field is absent,
stamp timestamps, validate, then append and persist.  The generated
Date.now + random ID is an explicit parameter, the validate hook an
explicit function returning none for success. -/
def create (cfg : Config) (validate : Obj → Option String) (genId : String) (now : Nat)
    (data : List Obj) (item : Obj) : StorageResult Obj × List Obj :=
  let newItem := item
  let newItem := if newItem.hasKey cfg.idField then newItem
    else newItem.set cfg.idField (.vStr genId)
  let newItem := addTimestamps cfg newItem true now
  match validate newItem with
  | some e => (.err e, data)
  | none => (.ok newItem, data ++ [newItem])

/-- The per-item transformation done inside the createBulk loop at index i:
ID generation when absent, then timestamps. -/
def bulkTransform (cfg : Config) (genIds : Nat → String) (now : Nat) (i : Nat)
    (item : Obj) : Obj :=
  addTimestamps cfg
    (if item.hasKey cfg.idField then item else item.set cfg.idField (.vStr (genIds i)))
    true now

/-- The createBulk loop: collect transformed valid items and indexed errors. -/
def bulkProcess (cfg : Config) (validate : Obj → Option String) (genIds : Nat → String)
    (now : Nat) : Nat → List Obj → List Obj × List (Nat × String)
  | _, [] => ([], [])
  | i, item :: rest =>
    let newItem := bulkTransform cfg genIds now i item
    let tail := bulkProcess cfg validate genIds now (i + 1) rest
    match validate newItem with
    | some e => (tail.1, (i, e) :: tail.2)
    | none => (newItem :: tail.1, tail.2)

/-- createBulk: run the loop from index 0, write the collection only when
some item was accepted, succeed exactly when no item failed. -/
def createBulk (cfg : Config) (validate : Obj → Option String) (genIds : Nat → String)
    (now : Nat) (data : List Obj) (items : List Obj) : BulkStorageResult × List Obj :=
  let processed := bulkProcess cfg validate genIds now 0 items
  let newData := if processed.1.isEmpty then data else data ++ processed.1
  (⟨processed.2.isEmpty, processed.1, processed.2⟩, newData)

/-- The replacement record built by put: full replacement with the ID
forced back to the requested one, then an updatedAt stamp. -/
def putItem (cfg : Config) (now : Nat) (id : Value) (item : Obj) : Obj :=
  addTimestamps cfg (item.set cfg.idField id) false now

/-- put: full replacement of the record at the given ID; Item not found
when the ID is absent; validation failure leaves the collection unchanged. -/
def put (cfg : Config) (validate : Obj → Option String) (now : Nat)
    (data : List Obj) (id : Value) (item : Obj) : StorageResult Obj × List Obj :=
  match findIndex (fun r => decide (r.get cfg.idField = id)) data with
  | none => (.err "Item not found", data)
  | some index =>
    let updatedItem := putItem cfg now id item
    match validate updatedItem with
    | some e => (.err e, data)
    | none => (.ok updatedItem, data.set index updatedItem)

/-- The merged record built by patch: shallow merge of the stored record
with the updates, ID preserved, then an updatedAt stamp. -/
def patchItem (cfg : Config) (now : Nat) (old : Obj) (id : Value) (updates : Obj) : Obj :=
  addTimestamps cfg ((Obj.merge old updates).set cfg.idField id) false now

/-- patch: shallow merge into the record at the given ID; Item not found
when the ID is absent; validation failure leaves the collection unchanged. -/
def patch (cfg : Config) (validate : Obj → Option String) (now : Nat)
    (data : List Obj) (id : Value) (updates : Obj) : StorageResult Obj × List Obj :=
  match findIndex (fun r => decide (r.get cfg.idField = id)) data with
  | none => (.err "Item not found", data)
  | some index =>
    let updatedItem := patchItem cfg now (data.getD index []) id updates
    match validate updatedItem with
    | some e => (.err e, data)
    | none => (.ok updatedItem, data.set index updatedItem)

/-- delete: splice out the record at the given ID, Item not found when absent. -/
def delete (cfg : Config) (data : List Obj) (id : Value) :
    StorageResult Bool × List Obj :=
  match findIndex (fun r => decide (r.get cfg.idField = id)) data with
  | none => (.err "Item not found", data)
  | some index => (.ok true, data.eraseIdx index)

/-- deleteBulk: keep the records whose ID is not in the list; the source
always reports success and never fills the error list. -/
def deleteBulk (cfg : Config) (data : List Obj) (ids : List Value) :
    Bool × List Obj :=
  (true, data.filter (fun item => !(ids.any (fun v => decide (v = item.get cfg.idField)))))

/-- deleteWhere: remove every record matching the criteria (partial object
or predicate), returning how many were removed. -/
def deleteWhere (_cfg : Config) (data : List Obj) (criteria : WhereClause) :
    StorageResult Nat × List Obj :=
  ((.ok (data.filter (matchesWhere criteria)).length),
   data.filter (fun item => !(matchesWhere criteria item)))

/-- clear: write the empty collection. -/
def clear (_data : List Obj) : StorageResult Bool × List Obj :=
  (.ok true, [])

/-- getAll: the stored collection, filtered when options are given. -/
def getAll (data : List Obj) (options : Option FilterOptions) : List Obj :=
  match options with
  | some o => applyFilters data o
  | none => data

/-- count: length of the filtered data. -/
def count (data : List Obj) (options : Option FilterOptions) : Nat :=
  (match options with
   | some o => applyFilters data o
   | none => data).length

end BaseStorageService

open BaseStorageService in
/-- C3: with a where predicate, an orderBy field and a limit k, getAll
returns exactly the first k elements of the predicate-filtered collection
sorted by the field (never more than k, never out of that order), and an
offset slice is likewise applied after filtering and sorting. -/
theorem getAll_filter_sort_slice (data : List Obj) (p : Obj → Bool) (f : String)
    (ord : Option OrderDir) (k off : Nat) :
    getAll data (some { whereClause := some (.pred p), orderBy := some f, order := ord, limit := some k }) =
      (sortByField f (decide (ord = some OrderDir.desc)) (data.filter p)).take k ∧
    (getAll data (some { whereClause := some (.pred p), orderBy := some f, order := ord, limit := some k })).length ≤ k ∧
    getAll data (some { whereClause := some (.pred p), orderBy := some f, order := ord, offset := some off, limit := some k }) =
      ((sortByField f (decide (ord = some OrderDir.desc)) (data.filter p)).drop off).take k := by
  refine ⟨rfl, ?_, rfl⟩
  exact List.length_take_le _ _

open BaseStorageService in
/-- C10: count returns the length of the filtered list after the
offset/limit slice, so count with a where predicate and limit k is
min(k, number of matching items), not the total match count. -/
theorem count_applies_slice (data : List Obj) (p : Obj → Bool) (k : Nat)
    (opts : FilterOptions) :
    count data (some opts) = (applyFilters data opts).length ∧
    count data (some { whereClause := some (.pred p), limit := some k }) =
      min k (data.filter p).length := by
  refine ⟨rfl, ?_⟩
  show (List.take k (data.filter p)).length = min k (data.filter p).length
  simp [List.length_take]

namespace BaseStorageService

theorem addTimestamps_get_ne (cfg : Config) (x : Obj) (isNew : Bool) (now : Nat) {k : String}
    (h1 : cfg.createdAtField ≠ k) (h2 : cfg.updatedAtField ≠ k) :
    (addTimestamps cfg x isNew now).get k = x.get k := by
  cases isNew <;>
    simp [addTimestamps, Obj.get_set_ne _ _ h2, Obj.get_set_ne _ _ h1]

theorem bulkProcess_spec (cfg : Config) (validate : Obj → Option String)
    (genIds : Nat → String) (now : Nat) (items : List Obj) : ∀ i : Nat,
    bulkProcess cfg validate genIds now i items =
      (((List.enumFrom i items).filter
          (fun q => (validate (bulkTransform cfg genIds now q.1 q.2)).isNone)).map
        (fun q => bulkTransform cfg genIds now q.1 q.2),
       (List.enumFrom i items).filterMap
        (fun q => (validate (bulkTransform cfg genIds now q.1 q.2)).map (fun e => (q.1, e)))) := by
  induction items with
  | nil => intro i; rfl
  | cons x xs ih =>
    intro i
    cases h : validate (bulkTransform cfg genIds now i x) with
    | none => simp [bulkProcess, List.enumFrom, h, ih (i + 1)]
    | some e => simp [bulkProcess, List.enumFrom, h, ih (i + 1)]

theorem length_filterMap_option {α β : Type} (g : α → Option β) (l : List α) :
    (l.filterMap g).length = l.countP (fun a => (g a).isSome) := by
  induction l with
  | nil => rfl
  | cons x xs ih =>
    cases h : g x <;> simp [List.filterMap_cons, h, List.countP_cons, ih]

theorem append_of_if_isEmpty {α : Type} (l d : List α) :
    (if l.isEmpty then d else d ++ l) = d ++ l := by
  cases l <;> simp

end BaseStorageService

open BaseStorageService in
/-- C2: createBulk persists exactly the items accepted by the validate
hook (appended in order to the stored collection), reports one error per
rejected item carrying its input index and the validation reason, and the
rejected items do not block the accepted ones in the same call; the
success flag is true exactly when no item was rejected. -/
theorem createBulk_partial_success (cfg : Config) (validate : Obj → Option String)
    (genIds : Nat → String) (now : Nat) (data : List Obj) (items : List Obj) :
    (createBulk cfg validate genIds now data items).2 =
      data ++ ((items.enum.filter
          (fun q => (validate (bulkTransform cfg genIds now q.1 q.2)).isNone)).map
        (fun q => bulkTransform cfg genIds now q.1 q.2)) ∧
    (createBulk cfg validate genIds now data items).1.data =
      ((items.enum.filter
          (fun q => (validate (bulkTransform cfg genIds now q.1 q.2)).isNone)).map
        (fun q => bulkTransform cfg genIds now q.1 q.2)) ∧
    (createBulk cfg validate genIds now data items).1.errors =
      items.enum.filterMap
        (fun q => (validate (bulkTransform cfg genIds now q.1 q.2)).map (fun e => (q.1, e))) ∧
    (createBulk cfg validate genIds now data items).1.data.length =
      items.enum.countP (fun q => (validate (bulkTransform cfg genIds now q.1 q.2)).isNone) ∧
    (createBulk cfg validate genIds now data items).1.errors.length =
      items.enum.countP (fun q => (validate (bulkTransform cfg genIds now q.1 q.2)).isSome) ∧
    (createBulk cfg validate genIds now data items).1.success =
      (createBulk cfg validate genIds now data items).1.errors.isEmpty := by
  have hspec := bulkProcess_spec cfg validate genIds now items 0
  refine ⟨?_, ?_, ?_, ?_, ?_, rfl⟩
  · simp only [createBulk, hspec, append_of_if_isEmpty, List.enum]
  · simp only [createBulk, hspec, List.enum]
  · simp only [createBulk, hspec, List.enum]
  · simp only [createBulk, hspec, List.length_map, ← List.countP_eq_length_filter, List.enum]
  · simp only [createBulk, hspec, length_filterMap_option, List.enum]
    refine List.countP_congr ?_
    intro q _
    simp [Option.isSome_map]

namespace BaseStorageService

theorem set_map_id_of_findIndex (cfg : Config) (id : Value) (u : Obj)
    (hu : u.get cfg.idField = id) :
    ∀ (data : List Obj) (index : Nat),
      findIndex (fun r => decide (r.get cfg.idField = id)) data = some index →
      (data.set index u).map (fun r => r.get cfg.idField) =
        data.map (fun r => r.get cfg.idField) := by
  intro data
  induction data with
  | nil => intro index h; simp [findIndex] at h
  | cons x xs ih =>
    intro index h
    by_cases hx : x.get cfg.idField = id
    · simp [findIndex, hx] at h
      subst h
      simp [List.set, hu, hx]
    · simp [findIndex, hx, Option.map_eq_some'] at h
      obtain ⟨j, hj, hj2⟩ := h
      subst hj2
      simp [List.set, ih j hj]

theorem putItem_get_id (cfg : Config) (now : Nat) (id : Value) (item : Obj)
    (h2 : cfg.idField ≠ cfg.updatedAtField) :
    (putItem cfg now id item).get cfg.idField = id := by
  unfold putItem addTimestamps
  simp [Obj.get_set_ne _ _ (Ne.symm h2), Obj.get_set_self]

theorem patchItem_get_id (cfg : Config) (now : Nat) (old : Obj) (id : Value) (updates : Obj)
    (h2 : cfg.idField ≠ cfg.updatedAtField) :
    (patchItem cfg now old id updates).get cfg.idField = id := by
  unfold patchItem addTimestamps
  simp [Obj.get_set_ne _ _ (Ne.symm h2), Obj.get_set_self]

end BaseStorageService

open BaseStorageService in
/-- C7: put and patch on an absent ID fail with the NotFound error and
leave the collection unchanged; on a present ID whose replaced or merged
item passes the re-run validation they succeed, persist at the found
position, and preserve the record ID; a validation failure also leaves
the collection unchanged. -/
theorem put_patch_notFound_and_success (cfg : Config) (validate : Obj → Option String)
    (now : Nat) (data : List Obj) (id : Value) (item updates : Obj)
    (h2 : cfg.idField ≠ cfg.updatedAtField) :
    ((∀ r ∈ data, r.get cfg.idField ≠ id) →
      put cfg validate now data id item = (.err "Item not found", data) ∧
      patch cfg validate now data id updates = (.err "Item not found", data)) ∧
    (∀ index, findIndex (fun r => decide (r.get cfg.idField = id)) data = some index →
      (putItem cfg now id item).get cfg.idField = id ∧
      (patchItem cfg now (data.getD index []) id updates).get cfg.idField = id ∧
      (validate (putItem cfg now id item) = none →
        put cfg validate now data id item =
          (.ok (putItem cfg now id item), data.set index (putItem cfg now id item))) ∧
      (∀ e, validate (putItem cfg now id item) = some e →
        put cfg validate now data id item = (.err e, data)) ∧
      (validate (patchItem cfg now (data.getD index []) id updates) = none →
        patch cfg validate now data id updates =
          (.ok (patchItem cfg now (data.getD index []) id updates),
           data.set index (patchItem cfg now (data.getD index []) id updates))) ∧
      (∀ e, validate (patchItem cfg now (data.getD index []) id updates) = some e →
        patch cfg validate now data id updates = (.err e, data))) := by
  constructor
  · intro habs
    have hnone : findIndex (fun r => decide (r.get cfg.idField = id)) data = none :=
      findIndex_eq_none _ _ (fun x hx => by simp [habs x hx])
    exact ⟨by simp [put, hnone], by simp [patch, hnone]⟩
  · intro index hidx
    refine ⟨putItem_get_id cfg now id item h2,
            patchItem_get_id cfg now (data.getD index []) id updates h2, ?_, ?_, ?_, ?_⟩
    · intro hv; simp only [put, hidx]; rw [hv]
    · intro e hv; simp only [put, hidx]; rw [hv]
    · intro hv; simp only [patch, hidx]; rw [hv]
    · intro e hv; simp only [patch, hidx]; rw [hv]

open BaseStorageService in
/-- C7 witness: on the empty collection put fails with the NotFound error
and leaves the collection unchanged. -/
theorem put_patch_notFound_and_success_witness :
    BaseStorageService.put defaultConfig (fun _ => none) 5 [] (.vStr "a") [] =
      (.err "Item not found", []) :=
  ((put_patch_notFound_and_success defaultConfig (fun _ => none) 5 [] (.vStr "a") [] []
    (by decide)).1 (by simp)).1

open BaseStorageService in
/-- C8: delete on an absent ID reports the NotFound error and leaves the
collection unchanged; deleteBulk and deleteWhere succeed on every input,
removing exactly the matching records and silently skipping non-matches;
clear always succeeds; and repeating deleteBulk, deleteWhere or clear with
the same argument leaves the collection unchanged. -/
theorem delete_notFound_and_idempotence (cfg : Config) (data : List Obj)
    (id : Value) (ids : List Value) (criteria : WhereClause) :
    ((∀ r ∈ data, r.get cfg.idField ≠ id) →
      BaseStorageService.delete cfg data id = (.err "Item not found", data)) ∧
    deleteBulk cfg data ids =
      (true, data.filter (fun item => !(ids.any (fun v => decide (v = item.get cfg.idField))))) ∧
    deleteBulk cfg (deleteBulk cfg data ids).2 ids = deleteBulk cfg data ids ∧
    deleteWhere cfg data criteria =
      (.ok (data.filter (matchesWhere criteria)).length,
       data.filter (fun item => !(matchesWhere criteria item))) ∧
    (deleteWhere cfg (deleteWhere cfg data criteria).2 criteria).2 =
      (deleteWhere cfg data criteria).2 ∧
    clear data = (.ok true, []) ∧
    clear (clear data).2 = clear data := by
  refine ⟨?_, rfl, ?_, rfl, ?_, rfl, rfl⟩
  · intro habs
    have hnone : findIndex (fun r => decide (r.get cfg.idField = id)) data = none :=
      findIndex_eq_none _ _ (fun x hx => by simp [habs x hx])
    simp [BaseStorageService.delete, hnone]
  · simp [deleteBulk, List.filter_filter]
  · simp [deleteWhere, List.filter_filter]

open BaseStorageService in
/-- C8 witness: deleting the ID a from a one-record collection that holds
only the ID b reports the NotFound error and changes nothing. -/
theorem delete_notFound_and_idempotence_witness :
    BaseStorageService.delete defaultConfig [[("id", Value.vStr "b")]] (.vStr "a") =
      (.err "Item not found", [[("id", Value.vStr "b")]]) :=
  (delete_notFound_and_idempotence defaultConfig [[("id", Value.vStr "b")]]
    (.vStr "a") [] (.fieldsEq [])).1 (by decide)

open BaseStorageService in
/-- C6 (amended): put and patch never change any stored ID (the sequence
of IDs in the collection is unchanged by a successful put or patch), and
create preserves ID uniqueness when the item carries no ID and the
generated ID is fresh; however create does not enforce uniqueness against
a caller-supplied ID, so such a create can duplicate an existing ID. -/
theorem id_immutability_and_freshness (cfg : Config) (validate : Obj → Option String)
    (genId : String) (now : Nat) (data : List Obj) (id : Value) (item updates : Obj)
    (h1 : cfg.idField ≠ cfg.createdAtField) (h2 : cfg.idField ≠ cfg.updatedAtField) :
    (∀ index, findIndex (fun r => decide (r.get cfg.idField = id)) data = some index →
      validate (putItem cfg now id item) = none →
      (put cfg validate now data id item).2.map (fun r => r.get cfg.idField) =
        data.map (fun r => r.get cfg.idField)) ∧
    (∀ index, findIndex (fun r => decide (r.get cfg.idField = id)) data = some index →
      validate (patchItem cfg now (data.getD index []) id updates) = none →
      (patch cfg validate now data id updates).2.map (fun r => r.get cfg.idField) =
        data.map (fun r => r.get cfg.idField)) ∧
    (item.hasKey cfg.idField = false →
      validate (addTimestamps cfg (item.set cfg.idField (.vStr genId)) true now) = none →
      (∀ r ∈ data, r.get cfg.idField ≠ .vStr genId) →
      (data.map (fun r => r.get cfg.idField)).Nodup →
      ((create cfg validate genId now data item).2.map (fun r => r.get cfg.idField)).Nodup) := by
  refine ⟨?_, ?_, ?_⟩
  · intro index hidx hv
    have hres : (put cfg validate now data id item).2 =
        data.set index (putItem cfg now id item) := by
      simp only [put, hidx]; rw [hv]
    rw [hres]
    exact set_map_id_of_findIndex cfg id _ (putItem_get_id cfg now id item h2) data index hidx
  · intro index hidx hv
    have hres : (patch cfg validate now data id updates).2 =
        data.set index (patchItem cfg now (data.getD index []) id updates) := by
      simp only [patch, hidx]; rw [hv]
    rw [hres]
    exact set_map_id_of_findIndex cfg id _
      (patchItem_get_id cfg now (data.getD index []) id updates h2) data index hidx
  · intro hkey hv hfresh hnodup
    have hres : (create cfg validate genId now data item).2 =
        data ++ [addTimestamps cfg (item.set cfg.idField (.vStr genId)) true now] := by
      simp only [create, hkey]
      rw [if_neg (by simp [hkey]), hv]
    rw [hres]
    have hid : (addTimestamps cfg (item.set cfg.idField (.vStr genId)) true now).get
        cfg.idField = .vStr genId := by
      rw [addTimestamps_get_ne cfg _ true now (Ne.symm h1) (Ne.symm h2), Obj.get_set_self]
    simp only [List.map_append, List.map_cons, List.map_nil, hid, List.nodup_append]
    refine ⟨hnodup, by simp, ?_⟩
    intro a ha
    simp only [List.mem_map] at ha
    obtain ⟨r, hr, rfl⟩ := ha
    simp [hfresh r hr]

open BaseStorageService in
/-- C6 witness: patching the status field of the sole record of a
collection leaves the stored ID sequence unchanged. -/
theorem id_immutability_and_freshness_witness :
    (BaseStorageService.patch defaultConfig (fun _ => none) 9
      [[("id", Value.vStr "a"), ("status", Value.vStr "pending")]] (.vStr "a")
      [("status", Value.vStr "completed")]).2.map (fun r => r.get "id") =
      [Value.vStr "a"] :=
  (id_immutability_and_freshness defaultConfig (fun _ => none) "g" 9
    [[("id", Value.vStr "a"), ("status", Value.vStr "pending")]] (.vStr "a") []
    [("status", Value.vStr "completed")] (by decide) (by decide)).2.1 0 (by decide) rfl

open BaseStorageService in
/-- C6 counterexample: create with a caller-supplied ID equal to an
existing record ID is accepted and leaves two records with the same ID in
the collection, so ID uniqueness is not enforced by create. -/
theorem create_duplicate_id_example :
    (BaseStorageService.create defaultConfig (fun _ => none) "fresh" 7
      [[("id", Value.vStr "a")]] [("id", Value.vStr "a")]).2.map (fun r => r.get "id") =
      [Value.vStr "a", Value.vStr "a"] ∧
    ¬ ((BaseStorageService.create defaultConfig (fun _ => none) "fresh" 7
      [[("id", Value.vStr "a")]] [("id", Value.vStr "a")]).2.map
        (fun r => r.get "id")).Nodup := by
  constructor
  · rfl
  · decide

/-
Typed layer: the web storage service (src/services/StorageService.web.ts)
keeps tasks and evidence in IndexedDB object stores with keyPath id, and
the App screens (src/App.tsx) construct the records.  An object store is
modelled as a list of records where put replaces the record carrying the
key and otherwise appends; the wall clock (new Date()) is an explicit
natural number parameter.
-/

namespace Portal

/-- Sync status literals pending | syncing | synced | failed. -/
inductive SyncStatus where
  | pending
  | syncing
  | synced
  | failed
deriving DecidableEq, Repr

/-- Evidence records as constructed by the App (handleFileSelect) and the
sample-data generator; updatedAt is optional because no creation site in
the repository sets it. -/
structure Evidence where
  id : String
  taskId : String
  type : String
  fileName : String
  filePath : String
  uploadedAt : Nat
  isOffline : Bool := false
  needsSync : Bool := false
  syncStatus : Option SyncStatus := none
  syncError : Option String := none
  lastSyncedAt : Option Nat := none
  updatedAt : Option Nat := none
deriving DecidableEq, Repr

/-- Task records as constructed by the App (handleAddTask); syncStatus is
optional because handleAddTask does not set it. -/
structure Task where
  id : String
  projectId : String
  title : String
  description : String
  status : String
  dueDate : Option Nat := none
  evidence : List Evidence := []
  createdAt : Nat
  updatedAt : Nat
  isOffline : Bool := false
  needsSync : Bool := false
  syncStatus : Option SyncStatus := none
  syncError : Option String := none
  lastSyncedAt : Option Nat := none
deriving DecidableEq, Repr

/-- Partial<Task> as passed to updateTask: a field is applied only when
present. -/
structure TaskPatch where
  status : Option String := none
  isOffline : Option Bool := none
  needsSync : Option Bool := none
  syncStatus : Option (Option SyncStatus) := none
  syncError : Option (Option String) := none
  lastSyncedAt : Option (Option Nat) := none
  updatedAt : Option Nat := none

/-- Partial<Evidence> as passed to updateEvidence. -/
structure EvidencePatch where
  isOffline : Option Bool := none
  needsSync : Option Bool := none
  syncStatus : Option (Option SyncStatus) := none
  syncError : Option (Option String) := none
  lastSyncedAt : Option (Option Nat) := none
  updatedAt : Option (Option Nat) := none

/-- The spread { ...task, ...updates } for a partial task update. -/
def applyTaskPatch (t : Task) (p : TaskPatch) : Task :=
  { t with
    status := p.status.getD t.status
    isOffline := p.isOffline.getD t.isOffline
    needsSync := p.needsSync.getD t.needsSync
    syncStatus := p.syncStatus.getD t.syncStatus
    syncError := p.syncError.getD t.syncError
    lastSyncedAt := p.lastSyncedAt.getD t.lastSyncedAt
    updatedAt := p.updatedAt.getD t.updatedAt }

/-- The spread { ...evidence, ...updates } for a partial evidence update. -/
def applyEvidencePatch (e : Evidence) (p : EvidencePatch) : Evidence :=
  { e with
    isOffline := p.isOffline.getD e.isOffline
    needsSync := p.needsSync.getD e.needsSync
    syncStatus := p.syncStatus.getD e.syncStatus
    syncError := p.syncError.getD e.syncError
    lastSyncedAt := p.lastSyncedAt.getD e.lastSyncedAt
    updatedAt := p.updatedAt.getD e.updatedAt }

/-- IndexedDB store.put on the tasks store (keyPath id): replace the
record at the key, else append. -/
def idbPutTask (tasks : List Task) (t : Task) : List Task :=
  if tasks.any (fun r => decide (r.id = t.id)) then
    tasks.map (fun r => if r.id = t.id then t else r)
  else tasks ++ [t]

/-- IndexedDB store.put on the evidence store (keyPath id). -/
def idbPutEvidence (evs : List Evidence) (e : Evidence) : List Evidence :=
  if evs.any (fun r => decide (r.id = e.id)) then
    evs.map (fun r => if r.id = e.id then e else r)
  else evs ++ [e]

namespace StorageService

/-- addTask: put the task into the tasks store. -/
def addTask (tasks : List Task) (t : Task) : List Task :=
  idbPutTask tasks t

/-- addEvidence: put the evidence into the evidence store. -/
def addEvidence (evs : List Evidence) (e : Evidence) : List Evidence :=
  idbPutEvidence evs e

/-- updateTask: read the task by id; when present, spread the updates over
it, overwrite updatedAt with the current time, and put it back; when
absent, do nothing. -/
def updateTask (now : Nat) (tasks : List Task) (taskId : String)
    (updates : TaskPatch) : List Task :=
  match tasks.find? (fun r => decide (r.id = taskId)) with
  | none => tasks
  | some task => idbPutTask tasks { applyTaskPatch task updates with updatedAt := now }

/-- updateEvidence: read the evidence by id; when present, spread the
updates over it and put it back; no timestamp is touched. -/
def updateEvidence (evs : List Evidence) (evidenceId : String)
    (updates : EvidencePatch) : List Evidence :=
  match evs.find? (fun r => decide (r.id = evidenceId)) with
  | none => evs
  | some evidence => idbPutEvidence evs (applyEvidencePatch evidence updates)

/-- getItemsNeedingSync: the tasks and evidence with needsSync truthy or
syncStatus pending or failed. -/
def getItemsNeedingSync (tasks : List Task) (evidence : List Evidence) :
    List Task × List Evidence :=
  (tasks.filter (fun t =>
      t.needsSync || decide (t.syncStatus = some .pending) ||
        decide (t.syncStatus = some .failed)),
   evidence.filter (fun e =>
      e.needsSync || decide (e.syncStatus = some .pending) ||
        decide (e.syncStatus = some .failed)))

end StorageService

namespace App

/-- The Task record built by handleAddTask: status pending, no syncStatus,
isOffline and needsSync both set to the negation of the connectivity flag,
and the stringified Date.now clock as ID. -/
def mkNewTask (now : Nat) (projectId title description : String)
    (dueDate : Option Nat) (isConnected : Bool) : Task :=
  { id := toString now
    projectId := projectId
    title := title
    description := description
    dueDate := dueDate
    status := "pending"
    evidence := []
    createdAt := now
    updatedAt := now
    isOffline := !isConnected
    needsSync := !isConnected }

/-- handleAddTask: reject a blank title, otherwise store the new task. -/
def handleAddTask (now : Nat) (tasks : List Task) (projectId title description : String)
    (dueDate : Option Nat) (isConnected : Bool) : List Task :=
  if title.trim = "" then tasks
  else StorageService.addTask tasks (mkNewTask now projectId title description dueDate isConnected)

/-- The Evidence record built by handleFileSelect: syncStatus always
pending, isOffline and needsSync both set to the negation of the
connectivity flag. -/
def mkNewEvidence (now : Nat) (selectedTaskId fileType fileName fileUri : String)
    (isConnected : Bool) : Evidence :=
  { id := "evidence-" ++ toString now
    taskId := selectedTaskId
    type := if fileType.startsWith "image/" then "photo" else "document"
    fileName := fileName
    filePath := fileUri
    uploadedAt := now
    isOffline := !isConnected
    needsSync := !isConnected
    syncStatus := some .pending }

/-- handleFileSelect: store the new evidence record. -/
def handleFileSelect (now : Nat) (evs : List Evidence)
    (selectedTaskId fileType fileName fileUri : String) (isConnected : Bool) :
    List Evidence :=
  StorageService.addEvidence evs
    (mkNewEvidence now selectedTaskId fileType fileName fileUri isConnected)

/-- The partial update handleToggleComplete sends to updateTask: flipped
status, isOffline and needsSync set to the negation of the connectivity
flag. -/
def toggleUpdates (task : Task) (isConnected : Bool) : TaskPatch :=
  { status := some (if task.status = "completed" then "pending" else "completed")
    isOffline := some (!isConnected)
    needsSync := some (!isConnected) }

/-- handleToggleComplete: look the task up in the screen state and send
the toggled partial update through updateTask. -/
def handleToggleComplete (now : Nat) (tasks : List Task) (taskId : String)
    (isConnected : Bool) : List Task :=
  match tasks.find? (fun t => decide (t.id = taskId)) with
  | none => tasks
  | some task => StorageService.updateTask now tasks taskId (toggleUpdates task isConnected)

end App

end Portal

/-- A task that has fully synced: needsSync false, syncStatus synced. -/
def sampleTask : Portal.Task :=
  { id := "t1"
    projectId := "p1"
    title := "T"
    description := "D"
    status := "pending"
    createdAt := 0
    updatedAt := 0
    needsSync := false
    syncStatus := some .synced }

/-- An evidence record carrying an updatedAt timestamp and a pending sync. -/
def sampleEvidence : Portal.Evidence :=
  { id := "e1"
    taskId := "t1"
    type := "photo"
    fileName := "f.jpg"
    filePath := "u"
    uploadedAt := 0
    needsSync := true
    syncStatus := some .pending
    updatedAt := some 3 }

/-- C5: getItemsNeedingSync returns exactly the records with needsSync
true or syncStatus pending or failed, and no others; in particular a
record with needsSync false and syncStatus synced is never selected. -/
theorem getItemsNeedingSync_spec (tasks : List Portal.Task)
    (evidence : List Portal.Evidence) :
    (∀ t : Portal.Task,
      t ∈ (Portal.StorageService.getItemsNeedingSync tasks evidence).1 ↔
        t ∈ tasks ∧ (t.needsSync = true ∨ t.syncStatus = some .pending ∨
          t.syncStatus = some .failed)) ∧
    (∀ e : Portal.Evidence,
      e ∈ (Portal.StorageService.getItemsNeedingSync tasks evidence).2 ↔
        e ∈ evidence ∧ (e.needsSync = true ∨ e.syncStatus = some .pending ∨
          e.syncStatus = some .failed)) := by
  constructor
  · intro t
    simp [Portal.StorageService.getItemsNeedingSync, List.mem_filter, or_assoc]
  · intro e
    simp [Portal.StorageService.getItemsNeedingSync, List.mem_filter, or_assoc]

/-- C1 (amended): local creation sets needsSync to the negation of the
connectivity flag; a new task carries no syncStatus, new evidence always
carries syncStatus pending, and toggling completion overwrites needsSync
with the negation of the connectivity flag while leaving syncStatus
unchanged — so needsSync false does not entail syncStatus synced. -/
theorem syncFields_after_local_operations
    (now : Nat) (pid title desc : String) (due : Option Nat)
    (tid ftype fname furi : String) (isConnected : Bool)
    (tasks : List Portal.Task) (taskId : String) (t : Portal.Task)
    (hfind : tasks.find? (fun r => decide (r.id = taskId)) = some t) :
    (Portal.App.mkNewTask now pid title desc due isConnected).needsSync = !isConnected ∧
    (Portal.App.mkNewTask now pid title desc due isConnected).syncStatus = none ∧
    (Portal.App.mkNewEvidence now tid ftype fname furi isConnected).needsSync = !isConnected ∧
    (Portal.App.mkNewEvidence now tid ftype fname furi isConnected).syncStatus = some .pending ∧
    Portal.App.handleToggleComplete now tasks taskId isConnected =
      Portal.idbPutTask tasks
        { Portal.applyTaskPatch t (Portal.App.toggleUpdates t isConnected) with
            updatedAt := now } ∧
    (Portal.applyTaskPatch t (Portal.App.toggleUpdates t isConnected)).needsSync =
      !isConnected ∧
    (Portal.applyTaskPatch t (Portal.App.toggleUpdates t isConnected)).syncStatus =
      t.syncStatus := by
  refine ⟨rfl, rfl, rfl, rfl, ?_, rfl, rfl⟩
  simp only [Portal.App.handleToggleComplete, Portal.StorageService.updateTask, hfind]

/-- C1 amended witness: toggling the synced sample task while offline
stores needsSync true with syncStatus untouched. -/
theorem syncFields_after_local_operations_witness :
    (Portal.applyTaskPatch sampleTask
      (Portal.App.toggleUpdates sampleTask false)).needsSync = !false :=
  (syncFields_after_local_operations 9 "p" "x" "d" none "t" "image/png" "f" "u" false
    [sampleTask] "t1" sampleTask rfl).2.2.2.2.2.1

/-- C1 counterexample: evidence added while online has needsSync false yet
syncStatus pending, so needsSync false does not imply syncStatus synced. -/
theorem addEvidenceOnline_breaks_needsSync_syncStatus :
    (Portal.App.handleFileSelect 5 [] "t1" "image/png" "a.png" "uri" true).map
      Portal.Evidence.needsSync = [false] ∧
    (Portal.App.handleFileSelect 5 [] "t1" "image/png" "a.png" "uri" true).map
      Portal.Evidence.syncStatus = [some .pending] ∧
    some Portal.SyncStatus.pending ≠ some Portal.SyncStatus.synced := by
  refine ⟨rfl, rfl, by decide⟩

/-- C4 (amended): a partial update that does not itself mention needsSync
leaves needsSync unchanged, both through the typed updateTask merge and
through the generic patch merge; the record becomes dirty again only when
the caller explicitly sends needsSync true, which handleToggleComplete
does exactly when offline. -/
theorem needsSync_unchanged_unless_explicit
    (t : Portal.Task) (p : Portal.TaskPatch) :
    (p.needsSync = none → (Portal.applyTaskPatch t p).needsSync = t.needsSync) ∧
    (∀ isConnected : Bool,
      (Portal.App.toggleUpdates t isConnected).needsSync = some (!isConnected)) ∧
    (∀ (cfg : BaseStorageService.Config) (old updates : Obj) (id : Value) (now : Nat),
      (∀ q ∈ updates, q.1 ≠ "needsSync") → cfg.idField ≠ "needsSync" →
      cfg.createdAtField ≠ "needsSync" → cfg.updatedAtField ≠ "needsSync" →
      (BaseStorageService.patchItem cfg now old id updates).get "needsSync" =
        old.get "needsSync") := by
  refine ⟨?_, fun _ => rfl, ?_⟩
  · intro hp
    simp [Portal.applyTaskPatch, hp]
  · intro cfg old updates id now hup hid hca hua
    unfold BaseStorageService.patchItem
    rw [BaseStorageService.addTimestamps_get_ne cfg _ false now hca hua,
        Obj.get_set_ne _ _ hid, Obj.get_merge_of_not_key old updates hup]

/-- C4 amended witness: patching only the status of the synced sample
task keeps its needsSync value. -/
theorem needsSync_unchanged_unless_explicit_witness :
    (Portal.applyTaskPatch sampleTask { status := some "completed" }).needsSync =
      sampleTask.needsSync :=
  (needsSync_unchanged_unless_explicit sampleTask { status := some "completed" }).1 rfl

/-- C4 counterexample: updating a previously synced task with only a
status change (via updateTask, and via the generic patch) leaves
needsSync false, not true. -/
theorem patch_keeps_needsSync_false_example :
    (Portal.StorageService.updateTask 9 [sampleTask] "t1"
      { status := some "completed" }).map Portal.Task.needsSync = [false] ∧
    (BaseStorageService.patch BaseStorageService.defaultConfig (fun _ => none) 9
      [[("id", Value.vStr "a"), ("needsSync", Value.vBool false),
        ("syncStatus", Value.vStr "synced"), ("status", Value.vStr "pending")]]
      (Value.vStr "a") [("status", Value.vStr "completed")]).2.map
        (fun r => r.get "needsSync") = [Value.vBool false] := by
  refine ⟨rfl, by decide⟩

/-- C9 (amended): put, patch and updateTask refresh the record updatedAt
with the mutation clock, including pure sync-bookkeeping updates; but
updateEvidence merges the partial update without touching updatedAt, so
an evidence sync-status update leaves updatedAt stale. -/
theorem updatedAt_refresh_behavior
    (cfg : BaseStorageService.Config) (now : Nat) (id : Value) (item old updates : Obj)
    (tasks : List Portal.Task) (taskId : String) (t : Portal.Task) (p : Portal.TaskPatch)
    (evs : List Portal.Evidence) (evidenceId : String) (e : Portal.Evidence)
    (q : Portal.EvidencePatch)
    (hfind : tasks.find? (fun r => decide (r.id = taskId)) = some t)
    (hefind : evs.find? (fun r => decide (r.id = evidenceId)) = some e)
    (hq : q.updatedAt = none) :
    (BaseStorageService.putItem cfg now id item).get cfg.updatedAtField = .vNum now ∧
    (BaseStorageService.patchItem cfg now old id updates).get cfg.updatedAtField =
      .vNum now ∧
    Portal.StorageService.updateTask now tasks taskId p =
      Portal.idbPutTask tasks { Portal.applyTaskPatch t p with updatedAt := now } ∧
    ({ Portal.applyTaskPatch t p with updatedAt := now } : Portal.Task).updatedAt = now ∧
    Portal.StorageService.updateEvidence evs evidenceId q =
      Portal.idbPutEvidence evs (Portal.applyEvidencePatch e q) ∧
    (Portal.applyEvidencePatch e q).updatedAt = e.updatedAt := by
  refine ⟨?_, ?_, ?_, rfl, ?_, ?_⟩
  · simp [BaseStorageService.putItem, BaseStorageService.addTimestamps, Obj.get_set_self]
  · simp [BaseStorageService.patchItem, BaseStorageService.addTimestamps, Obj.get_set_self]
  · simp only [Portal.StorageService.updateTask, hfind]
  · simp only [Portal.StorageService.updateEvidence, hefind]
  · simp [Portal.applyEvidencePatch, hq]

/-- C9 amended witness: a pure sync-status update on the sample evidence
keeps its stored updatedAt value. -/
theorem updatedAt_refresh_behavior_witness :
    (Portal.applyEvidencePatch sampleEvidence
      { syncStatus := some (some .synced) }).updatedAt = sampleEvidence.updatedAt :=
  (updatedAt_refresh_behavior BaseStorageService.defaultConfig 9 (.vStr "a") [] [] []
    [sampleTask] "t1" sampleTask {} [sampleEvidence] "e1" sampleEvidence
    { syncStatus := some (some .synced) } rfl rfl rfl).2.2.2.2.2

/-- C9 counterexample: marking the sample evidence synced through
updateEvidence applies the sync status but leaves updatedAt at its old
value 3 — updateEvidence never reads the clock. -/
theorem updateEvidence_stale_updatedAt_example :
    (Portal.StorageService.updateEvidence [sampleEvidence] "e1"
      { syncStatus := some (some .synced) }).map Portal.Evidence.updatedAt = [some 3] ∧
    (Portal.StorageService.updateEvidence [sampleEvidence] "e1"
      { syncStatus := some (some .synced) }).map Portal.Evidence.syncStatus =
      [some .synced] :=
  ⟨rfl, rfl⟩
